import Mathlib

/-! Verification of the resilient verification core.

This file gives a shallow embedding of the ParaBank test-automation
verification core of this repository (the response classifier/validator in
`utils/ApiHelper.js`, the endpoint prober `findTransactionsByAmount`, the
captured-endpoint log `storeCapturedEndpoint`, the entropy helpers in
`utils/DataGenerator.js`, and the registration retry loop `registerUser` in
`pages/RegisterPage.js`), together with theorems settling the specification
claims about that core.

JavaScript values flowing through the classifier are JSON-parsed data
(`response.json()`), so they are modelled by the `JsValue` inductive below:
JSON has no `undefined`, no `NaN` and no cyclic structures.  JS numbers are
modelled as rationals: every claim under study depends only on parseability
and on decimal comparisons that are exact on the inputs concerned, not on
binary floating-point rounding.
-/

/-- Model of a JSON-parsed JavaScript value (the result of `response.json()`
or a captured response payload).  JSON cannot produce `undefined`, so field
absence is modelled with `Option JsValue` at the access points. -/
inductive JsValue where
  | null
  | bool (b : Bool)
  | num (q : ℚ)
  | str (s : String)
  | arr (elems : List JsValue)
  | obj (fields : List (String × JsValue))

/-- JS `typeof` on a `JsValue` (`typeof null` is `"object"`). -/
def jsTypeof : JsValue → String
  | .null => "object"
  | .bool _ => "boolean"
  | .num _ => "number"
  | .str _ => "string"
  | .arr _ => "object"
  | .obj _ => "object"

/-- JS truthiness of a value, as used by `if (data)` and
`if (transaction.amount)`.  `0`, `""`, `false` and `null` are falsy; arrays
and objects are always truthy.  (JS `NaN` is also falsy, but a JSON-parsed
value is never `NaN`.) -/
def jsTruthy : JsValue → Bool
  | .null => false
  | .bool b => b
  | .num q => decide (q ≠ 0)
  | .str s => decide (s ≠ "")
  | .arr _ => true
  | .obj _ => true

/-- Whether the first list starts the second. -/
def leadsWith : List Char → List Char → Bool
  | [], _ => true
  | _ :: _, [] => false
  | a :: as, b :: bs => a == b && leadsWith as bs

/-- Whether `needle` occurs as a contiguous run inside the second list. -/
def containsRun (needle : List Char) : List Char → Bool
  | [] => needle.isEmpty
  | c :: t => leadsWith needle (c :: t) || containsRun needle t

/-- JS `String.prototype.includes`: `jsIncludes s sub` models
`s.includes(sub)`. -/
def jsIncludes (s sub : String) : Bool :=
  containsRun sub.data s.data

/-- A string is a canonical array index (the exact strings produced by
`Object.keys` on an array) when it round-trips through `Nat.repr`. -/
def jsParseIndex (k : String) : Option Nat :=
  match k.toNat? with
  | some n => if Nat.repr n = k then some n else none
  | none => none

/-- JS property read `v[k]` for the non-`null` receivers reachable in the
embedded code (member access on `null` throws in JS; every call site in this
file guards the receiver, either through `jsObjectKeys` or through an
explicit `null` test).  JSON-parsed objects have unique keys, so first-match
association lookup is exact. -/
def jsGetField : JsValue → String → Option JsValue
  | .obj kvs, k => (kvs.find? (fun p => p.1 == k)).map (·.2)
  | .arr xs, k =>
    match jsParseIndex k with
    | some n => xs.get? n
    | none => none
  | .str s, k =>
    match jsParseIndex k with
    | some n => (s.data.get? n).map (fun c => .str (String.mk [c]))
    | none => none
  | _, _ => none

/-- JS `Object.keys`.  Throws a `TypeError` on `null` (modelled with
`Except.error`); on arrays and strings it returns the canonical index
strings; on other primitives it returns `[]`. -/
def jsObjectKeys : JsValue → Except String (List String)
  | .null => .error "TypeError: Cannot convert undefined or null to object"
  | .obj kvs => .ok (kvs.map (·.1))
  | .arr xs => .ok ((List.range xs.length).map Nat.repr)
  | .str s => .ok ((List.range s.length).map Nat.repr)
  | .bool _ => .ok []
  | .num _ => .ok []

/-- Longest leading run of decimal digits of a character list, together with
the rest. -/
def takeDigits : List Char → List Char × List Char
  | [] => ([], [])
  | c :: cs =>
    if c.isDigit then
      let (d, r) := takeDigits cs
      (c :: d, r)
    else ([], c :: cs)

/-- Numeric value of a list of decimal digits. -/
def digitsToNat (ds : List Char) : Nat :=
  ds.foldl (fun n c => n * 10 + (c.toNat - 48)) 0

/-- Exponent part of a JS decimal literal: `e`/`E`, optional sign, digits.
Per `parseFloat`, an exponent marker not followed by digits is ignored. -/
def parseExponent : List Char → Int
  | 'e' :: cs => parseExponentTail cs
  | 'E' :: cs => parseExponentTail cs
  | _ => 0
where
  parseExponentTail : List Char → Int
    | '+' :: cs => if (takeDigits cs).1.isEmpty then 0 else (digitsToNat (takeDigits cs).1 : Int)
    | '-' :: cs => if (takeDigits cs).1.isEmpty then 0 else -(digitsToNat (takeDigits cs).1 : Int)
    | cs => if (takeDigits cs).1.isEmpty then 0 else (digitsToNat (takeDigits cs).1 : Int)

/-- Mantissa (integer digits, fraction digits) combined with a signed decimal
exponent, as an exact rational. -/
def decimalValue (intD fracD : List Char) (exp : Int) : ℚ :=
  ((digitsToNat intD : ℚ) + (digitsToNat fracD : ℚ) / ((10 : ℚ) ^ fracD.length))
    * (10 : ℚ) ^ exp

/-- Unsigned part of JS `parseFloat`: longest decimal-literal prefix, `none`
when no digit is found (JS `NaN`). -/
def jsParseFloatUnsigned (cs : List Char) : Option ℚ :=
  let (intD, r1) := takeDigits cs
  match r1 with
  | '.' :: r2 =>
    let (fracD, r3) := takeDigits r2
    if intD.isEmpty && fracD.isEmpty then none
    else some (decimalValue intD fracD (parseExponent r3))
  | r1 =>
    if intD.isEmpty then none
    else some (decimalValue intD [] (parseExponent r1))

/-- JS `parseFloat` on a string: skip leading whitespace, optional sign,
longest decimal-literal prefix; `none` models `NaN`.  The special literal
`"Infinity"` is not representable in `ℚ` and is modelled as `none`; no claim
under study involves it. -/
def jsParseFloat (s : String) : Option ℚ :=
  match s.data.dropWhile Char.isWhitespace with
  | '+' :: cs => jsParseFloatUnsigned cs
  | '-' :: cs => (jsParseFloatUnsigned cs).map Neg.neg
  | cs => jsParseFloatUnsigned cs

/-- Hexadecimal digit value, for the `0x` form of `parseInt`. -/
def hexDigitVal (c : Char) : Option Nat :=
  if c.isDigit then some (c.toNat - 48)
  else if 'a' ≤ c ∧ c ≤ 'f' then some (c.toNat - 87)
  else if 'A' ≤ c ∧ c ≤ 'F' then some (c.toNat - 55)
  else none

/-- Longest leading run of hex digits, as a number, `none` when empty. -/
def takeHex (cs : List Char) : Option Nat :=
  let ds := cs.takeWhile (fun c => (hexDigitVal c).isSome)
  if ds.isEmpty then none
  else some (ds.foldl (fun n c => n * 16 + (hexDigitVal c).getD 0) 0)

/-- Unsigned part of JS `parseInt` (no explicit radix): `0x`/`0X` prefix
switches to base 16, otherwise the longest decimal-digit prefix; `none`
models `NaN`. -/
def jsParseIntUnsigned : List Char → Option Nat
  | '0' :: 'x' :: cs => takeHex cs
  | '0' :: 'X' :: cs => takeHex cs
  | cs =>
    let (ds, _) := takeDigits cs
    if ds.isEmpty then none else some (digitsToNat ds)

/-- JS `parseInt` with no radix argument on a string. -/
def jsParseInt (s : String) : Option Int :=
  match s.data.dropWhile Char.isWhitespace with
  | '+' :: cs => (jsParseIntUnsigned cs).map Int.ofNat
  | '-' :: cs => (jsParseIntUnsigned cs).map (fun n => -(n : Int))
  | cs => (jsParseIntUnsigned cs).map Int.ofNat

/-- Truncation toward zero, the value of `parseInt` on a finite JS number
written in plain decimal notation. -/
def jsTrunc (q : ℚ) : Int :=
  if q < 0 then -((-q).floor) else q.floor

/-- JS `parseFloat(x)` for a field value `x`: a number is returned as itself
(`parseFloat` round-trips through its decimal printout), a string is parsed;
`null` and booleans stringify to non-numeric text, hence `NaN`.  The exotic
array/object-to-string coercion corners also yield `none` here; no claim
depends on them. -/
def jsParseFloatValue : JsValue → Option ℚ
  | .num q => some q
  | .str s => jsParseFloat s
  | _ => none

/-- JS `parseInt(x)` for a field value `x`: numbers truncate toward zero
(through their decimal printout), strings are parsed; other values are
non-numeric.  (The `parseInt(1e21)` printout corner is not representable
here and no claim depends on it.) -/
def jsParseIntValue : JsValue → Option Int
  | .num q => some (jsTrunc q)
  | .str s => jsParseInt s
  | _ => none

/-- The test `!isNaN(Date.parse(x))`, modelled on the ISO-8601 calendar-date subset
`YYYY-MM-DD` (optionally followed by a `T...` time part) of the
implementation-defined JS date parser.  Only the PASS/FAIL status of the
date FieldCheck depends on this predicate and no claim under study depends
on the exact accepted set. -/
def jsDateParseValid : JsValue → Bool
  | .str s =>
    match s.data with
    | y1 :: y2 :: y3 :: y4 :: '-' :: m1 :: m2 :: '-' :: d1 :: d2 :: rest =>
      y1.isDigit && y2.isDigit && y3.isDigit && y4.isDigit &&
      m1.isDigit && m2.isDigit && d1.isDigit && d2.isDigit &&
      decide (1 ≤ digitsToNat [m1, m2]) && decide (digitsToNat [m1, m2] ≤ 12) &&
      decide (1 ≤ digitsToNat [d1, d2]) && decide (digitsToNat [d1, d2] ≤ 31) &&
      (rest.isEmpty || rest.headD ' ' == 'T')
    | _ => false
  | _ => false

/-- JS `s.substring(0, n)` (code points; the embedded usernames are ASCII,
where this agrees with the UTF-16 indexing of JS). -/
def jsSubstring (s : String) (n : Nat) : String :=
  String.mk (s.data.take n)

example : jsParseFloat "abc" = none := by decide
example : jsParseFloat "35.68" = some (decimalValue ['3', '5'] ['6', '8'] 0) := rfl
example : decimalValue ['3', '5'] ['6', '8'] 0 = (3568 / 100 : ℚ) := by
  have h1 : digitsToNat ['3', '5'] = 35 := by decide
  have h2 : digitsToNat ['6', '8'] = 68 := by decide
  rw [decimalValue, h1, h2]
  norm_num
example : jsParseInt "35.68" = some 35 := by decide
example : jsParseInt "0x1f" = some 31 := by decide
example : jsDateParseValid (.str "2024-01-01") = true := by decide
example : jsDateParseValid (.str "not-a-date") = false := by decide

/-! ## Response classifier and validator (`ApiHelper.analyzeJsonResponse`) -/

/-- Status tag of a validation entry (`"PASS" | "FAIL" | "MISSING" | "INFO"`
in the source). -/
inductive CheckStatus where
  | PASS
  | FAIL
  | MISSING
  | INFO
deriving DecidableEq, Repr

/-- One entry of `analysis.validations`.  The JS objects pushed by the
source carry different key sets per call site; absent keys are `none`.
`jstype` embeds the `type` key of the primitive-branch INFO entry. -/
structure FieldCheck where
  field : String
  status : CheckStatus
  value : Option JsValue := none
  reason : Option String := none
  validation : Option String := none
  jstype : Option String := none

/-- Entry of the structure inventory: `analysis.structure[field] =
{ type, value }`. -/
structure FieldInfo where
  type : String
  value : JsValue

/-- The inventory `analysis.structure`: starts as `{}`; the array/object branches set
`.fields` and one entry per observed field, the primitive branch sets
`.value`. -/
structure StructureInfo where
  fields : Option (List String) := none
  entries : List (String × FieldInfo) := []
  value : Option JsValue := none

/-- The record `analysis.summary`: counts per status. -/
structure Summary where
  passed : Nat
  failed : Nat
  missing : Nat
  info : Nat
deriving DecidableEq, Repr

/-- The analysis record returned by `analyzeJsonResponse` (and, with most
fields absent, by the HTML-fallback and no-endpoint branches of the query
methods of the helper).  Keys never assigned on a branch are `none`. -/
structure Analysis where
  endpoint : Option String := none
  type : Option String := none
  isArray : Option Bool := none
  arrayLength : Option Nat := none
  struct : StructureInfo := {}
  validations : List FieldCheck := []
  summary : Option Summary := none
  data : Option JsValue := none

/-- The summary `analysis.summary` as computed at the end of `analyzeJsonResponse`:
four `filter(...).length` passes over the validations. -/
def mkSummary (validations : List FieldCheck) : Summary :=
  { passed := (validations.filter (fun v => decide (v.status = .PASS))).length
    failed := (validations.filter (fun v => decide (v.status = .FAIL))).length
    missing := (validations.filter (fun v => decide (v.status = .MISSING))).length
    info := (validations.filter (fun v => decide (v.status = .INFO))).length }

/-- One step of the fold described by the specification: bump the counter
of the status of the check. -/
def statusStep (s : Summary) (c : FieldCheck) : Summary :=
  match c.status with
  | .PASS => { s with passed := s.passed + 1 }
  | .FAIL => { s with failed := s.failed + 1 }
  | .MISSING => { s with missing := s.missing + 1 }
  | .INFO => { s with info := s.info + 1 }

/-- The description the specification gives of the summary: a single left fold over
the FieldCheck sequence counting checks per status. -/
def foldStatusCounts (checks : List FieldCheck) : Summary :=
  checks.foldl statusStep ⟨0, 0, 0, 0⟩

/-- The declared transaction schema checked by the array branch. -/
def transactionFields : List String :=
  ["id", "accountId", "amount", "date", "type", "description"]

/-- The declared account schema checked by the object branch. -/
def accountFields : List String :=
  ["id", "customerId", "type", "balance"]

/-- Structure-inventory entry for one observed field of the sampled item
(`analysis.structure[field] = { type: valueType, value: value }`).  The
receiver is non-null (its key list was computed), so the `getD` default is
never reached. -/
def structureEntry (item : JsValue) (f : String) : String × FieldInfo :=
  let v := (jsGetField item f).getD JsValue.null
  (f, { type := jsTypeof v, value := v })

/-- Presence check for one declared schema field: PASS with the observed
value when the key is present, MISSING otherwise. -/
def presenceCheck (item : JsValue) (fields : List String) (f : String) : FieldCheck :=
  if fields.contains f then
    { field := f, status := .PASS, value := jsGetField item f }
  else
    { field := f, status := .MISSING, reason := some "Field not found in response" }

/-- Secondary amount validation: applied when `firstItem.amount` is defined;
PASS with the parsed float, FAIL with reason `not_a_number` otherwise. -/
def amountChecks (item : JsValue) : List FieldCheck :=
  match jsGetField item "amount" with
  | none => []
  | some av =>
    match jsParseFloatValue av with
    | some q =>
      [{ field := "amount", status := .PASS, value := some (.num q),
         validation := some "valid_number" }]
    | none =>
      [{ field := "amount", status := .FAIL, value := some av,
         reason := some "not_a_number" }]

/-- Secondary accountId validation (`parseInt`). -/
def accountIdChecks (item : JsValue) : List FieldCheck :=
  match jsGetField item "accountId" with
  | none => []
  | some av =>
    match jsParseIntValue av with
    | some n =>
      [{ field := "accountId", status := .PASS, value := some (.num (n : ℚ)),
         validation := some "valid_number" }]
    | none =>
      [{ field := "accountId", status := .FAIL, value := some av,
         reason := some "not_a_number" }]

/-- Secondary date validation (`!isNaN(Date.parse(...))`). -/
def dateChecks (item : JsValue) : List FieldCheck :=
  match jsGetField item "date" with
  | none => []
  | some dv =>
    if jsDateParseValid dv then
      [{ field := "date", status := .PASS, value := some dv,
         validation := some "valid_date" }]
    else
      [{ field := "date", status := .FAIL, value := some dv,
         reason := some "invalid_date" }]

/-- All validations pushed by the non-empty-array branch: one presence check
per declared transaction field, then the three conditional secondary
checks, in push order. -/
def transactionValidations (item : JsValue) (fields : List String) : List FieldCheck :=
  transactionFields.map (presenceCheck item fields)
    ++ amountChecks item ++ accountIdChecks item ++ dateChecks item

/-- The primitive branch of the analysis: a single INFO check carrying the
value and its `typeof` string. -/
def primitiveAnalysis (prim : JsValue) (endpoint : String) : Analysis :=
  let validations : List FieldCheck :=
    [{ field := "response", status := .INFO, value := some prim,
       jstype := some (jsTypeof prim) }]
  { endpoint := some endpoint, type := some (jsTypeof prim), isArray := some false,
    data := some prim,
    struct := { value := some prim },
    validations := validations, summary := some (mkSummary validations) }

/-- The method `ApiHelper.analyzeJsonResponse(jsonData, endpoint)`
(`utils/ApiHelper.js`).  The only JS runtime error the function can raise is
`Object.keys(null)` when the first array element is `null`; it is modelled
with `Except.error`.  Note the null branch returns *before* the summary is
computed, so its `summary` stays absent. -/
def analyzeJsonResponse (jsonData : JsValue) (endpoint : String) : Except String Analysis :=
  match jsonData with
  | .null =>
    .ok { endpoint := some endpoint, type := some "object", isArray := some false,
          data := some .null,
          validations := [{ field := "response", status := .FAIL,
                            reason := some "Response is null" }] }
  | .arr [] =>
    let validations : List FieldCheck :=
      [{ field := "array", status := .INFO, reason := some "Empty array response" }]
    .ok { endpoint := some endpoint, type := some "object", isArray := some true,
          arrayLength := some 0, data := some (.arr []),
          validations := validations, summary := some (mkSummary validations) }
  | .arr (firstItem :: rest) =>
    match jsObjectKeys firstItem with
    | .error msg => .error msg
    | .ok fields =>
      let validations := transactionValidations firstItem fields
      .ok { endpoint := some endpoint, type := some "object", isArray := some true,
            arrayLength := some (firstItem :: rest).length,
            data := some (.arr (firstItem :: rest)),
            struct := { fields := some fields,
                        entries := fields.map (structureEntry firstItem) },
            validations := validations, summary := some (mkSummary validations) }
  | .obj kvs =>
    let fields := kvs.map (·.1)
    let validations := accountFields.map (presenceCheck (.obj kvs) fields)
    .ok { endpoint := some endpoint, type := some "object", isArray := some false,
          data := some (.obj kvs),
          struct := { fields := some fields,
                      entries := fields.map (structureEntry (.obj kvs)) },
          validations := validations, summary := some (mkSummary validations) }
  | .bool b => .ok (primitiveAnalysis (.bool b) endpoint)
  | .num q => .ok (primitiveAnalysis (.num q) endpoint)
  | .str s => .ok (primitiveAnalysis (.str s) endpoint)

/-! ## Captured-endpoint log (`ApiHelper.storeCapturedEndpoint`) -/

/-- One entry of `this.capturedEndpoints`.  The HTTP method is kept as the
string the observer captured (the prober compares it to `"GET"`/`"POST"`
with `===`). -/
structure CapturedCall where
  endpoint : String
  method : String
  data : JsValue
  timestamp : Nat

/-- One entry of `this.jsonResponses`. -/
structure JsonResponseRecord where
  endpoint : String
  method : String
  response : JsValue
  timestamp : Nat

/-- The mutable instance state of `ApiHelper` relevant to the core (the
request context handle is an opaque external resource and is not part of
the model). -/
structure ApiHelperState where
  capturedEndpoints : List CapturedCall
  jsonResponses : List JsonResponseRecord

/-- The method `ApiHelper.storeCapturedEndpoint(endpoint, method, data = null)`.
`Array.prototype.push` appends at the end.  `Date.now()` is read once for
each record, modelled by the explicit clock arguments `now1`, `now2`.
Note the JSON log is guarded by JS truthiness (`if (data)`), not by a null
test. -/
def storeCapturedEndpoint (st : ApiHelperState) (endpoint method : String)
    (data : JsValue) (now1 now2 : Nat) : ApiHelperState :=
  let capturedData : CapturedCall :=
    { endpoint := endpoint, method := method, data := data, timestamp := now1 }
  let st1 := { st with capturedEndpoints := st.capturedEndpoints ++ [capturedData] }
  if jsTruthy data then
    { st1 with jsonResponses :=
        st1.jsonResponses ++
          [{ endpoint := endpoint, method := method, response := data, timestamp := now2 }] }
  else st1

/-- The function `analyzeJsonResponse` as the instance-method call it is in the source:
the method body references no instance state (`this` never occurs in it),
so the call leaves the state untouched and its result is a function of the
arguments alone. -/
def analyzeJsonResponseCall (st : ApiHelperState) (jsonData : JsValue)
    (endpoint : String) : ApiHelperState × Except String Analysis :=
  (st, analyzeJsonResponse jsonData endpoint)

/-! ## Prober (`ApiHelper.findTransactionsByAmount`) -/

/-- The observable behaviour of one HTTP exchange from the point of view of
the prober: `response.status()`, the outcome of `response.json()` (`some`
exactly when the body text parses as JSON) and the raw `response.text()`.
Playwright buffers response bodies, so `text()` is available after a failed
`json()`. -/
structure NetResponse where
  status : Nat
  jsonBody : Option JsValue
  textBody : String

/-- Result of issuing one request: a response, or a thrown request error. -/
inductive NetResult where
  | ok (r : NetResponse)
  | err (msg : String)

/-- The network capability: `method` and `endpoint` to outcome.  The test
target is external; a run of the prober is analysed against an arbitrary
such oracle. -/
def Net : Type := String → String → NetResult

/-- The `data` key of the object `findTransactionsByAmount` resolves with:
parsed JSON, the HTML fallback object `{ html, containsAccount,
containsAmount }`, or `null` in the final not-found object. -/
inductive FindData where
  | json (v : JsValue)
  | html (text : String) (containsAccount containsAmount : Bool)
  | nullData

/-- The object resolved by `findTransactionsByAmount` (response headers are
an opaque passthrough of the external response and are not modelled;
`originalData` is only present on the captured-endpoint success path). -/
structure FindResult where
  status : Nat
  data : FindData
  endpoint : String
  analysis : Analysis
  originalData : Option JsValue := none

/-- The verdict built for an HTML (non-JSON) fallback response: three fixed
checks and a hard-coded summary that ignores the two reference checks. -/
def htmlFallbackAnalysis (containsAccount containsAmount : Bool) : Analysis :=
  { type := some "html",
    validations :=
      [{ field := "response", status := .INFO, reason := some "HTML response" },
       { field := "accountReference",
         status := if containsAccount then .PASS else .FAIL,
         value := some (.bool containsAccount) },
       { field := "amountReference",
         status := if containsAmount then .PASS else .FAIL,
         value := some (.bool containsAmount) }],
    summary := some ⟨0, 0, 0, 1⟩ }

/-- The verdict attached to the final 404 object when no endpoint produced
a usable response. -/
def noEndpointAnalysis : Analysis :=
  { validations :=
      [{ field := "response", status := .FAIL,
         reason := some "No API endpoints returned data" }],
    summary := some ⟨0, 1, 0, 0⟩ }

/-- The amount-match predicate of the captured-endpoint filter: the
`amount` field must be truthy and its absolute parsed value within `0.01`
of the parsed search amount.  Only called on non-`null` elements. -/
def amountMatches (amount : String) (t : JsValue) : Bool :=
  match jsGetField t "amount" with
  | none => false
  | some av =>
    jsTruthy av &&
      match jsParseFloatValue av, jsParseFloat amount with
      | some ta, some sa => decide (|(|ta|) - sa| < 1 / 100)
      | _, _ => false

/-- The filter `jsonData.filter(transaction => ...)` over the response array: member
access `transaction.amount` throws a `TypeError` when an element is `null`,
aborting the whole filter (and failing the candidate). -/
def filterMatchesE (amount : String) : List JsValue → Except String (List JsValue)
  | [] => .ok []
  | .null :: _ => .error "TypeError: Cannot read properties of null"
  | t :: rest =>
    match filterMatchesE amount rest with
    | .error e => .error e
    | .ok r => .ok (if amountMatches amount t then t :: r else r)

/-- Post-parse processing of a 200 JSON body on the captured-endpoint path:
analyse, then filter arrays by amount keeping the full body when nothing
matches.  Any thrown `TypeError` surfaces as `Except.error` and is caught
by the `catch (jsonError)` of the candidate loop. -/
def processCapturedJson (v : JsValue) (endpoint amount : String) :
    Except String FindResult :=
  match analyzeJsonResponse v endpoint with
  | .error e => .error e
  | .ok analysis =>
    match v with
    | .arr xs =>
      match filterMatchesE amount xs with
      | .error e => .error e
      | .ok ms =>
        .ok { status := 200,
              data := .json (if ms.length > 0 then .arr ms else .arr xs),
              endpoint := endpoint, analysis := analysis,
              originalData := some (.arr xs) }
    | _ =>
      .ok { status := 200, data := .json v, endpoint := endpoint,
            analysis := analysis, originalData := some v }

/-- The predicate selecting transaction-related captured endpoints
(`includes("transaction") || includes("findtrans") ||
includes("account") && includes(accountId)`; `&&` binds tighter). -/
def capturedMatches (accountId : String) (ep : CapturedCall) : Bool :=
  jsIncludes ep.endpoint "transaction" || jsIncludes ep.endpoint "findtrans" ||
    (jsIncludes ep.endpoint "account" && jsIncludes ep.endpoint accountId)

/-- The loop over matching captured endpoints.  Returns the requests issued
(in order) and the early-return result, if any.  A method other than
`GET`/`POST` leaves `response` undefined, so `response.status()` throws and
the candidate is skipped without a request; request errors, non-200
statuses, non-JSON bodies and processing `TypeError`s all just advance to
the next candidate. -/
def tryCaptured (net : Net) (accountId amount : String) :
    List CapturedCall → List (String × String) × Option FindResult
  | [] => ([], none)
  | c :: rest =>
    if c.method = "GET" ∨ c.method = "POST" then
      match net c.method c.endpoint with
      | .err _ =>
        let (t, r) := tryCaptured net accountId amount rest
        ((c.method, c.endpoint) :: t, r)
      | .ok resp =>
        if resp.status = 200 then
          match resp.jsonBody with
          | some v =>
            match processCapturedJson v c.endpoint amount with
            | .ok res => ([(c.method, c.endpoint)], some res)
            | .error _ =>
              let (t, r) := tryCaptured net accountId amount rest
              ((c.method, c.endpoint) :: t, r)
          | none =>
            let (t, r) := tryCaptured net accountId amount rest
            ((c.method, c.endpoint) :: t, r)
        else
          let (t, r) := tryCaptured net accountId amount rest
          ((c.method, c.endpoint) :: t, r)
    else
      tryCaptured net accountId amount rest

/-- The static fallback endpoint list for the transaction query. -/
def fallbackEndpoints (accountId : String) : List String :=
  ["/services/bank/accounts/" ++ accountId ++ "/transactions",
   "/services/bank/transactions/account/" ++ accountId,
   "/activity.htm?id=" ++ accountId,
   "/overview.htm",
   "/findtrans.htm"]

/-- The loop over fallback endpoints (all issued with GET).  A 200 response
returns immediately: with the parsed JSON and its analysis when both
`json()` and the analysis succeed, and otherwise — through `catch
(jsonError)` — with the HTML result built from the raw text. -/
def tryFallbacks (net : Net) (accountId amount : String) :
    List String → List (String × String) × Option FindResult
  | [] => ([], none)
  | ep :: rest =>
    match net "GET" ep with
    | .err _ =>
      let (t, r) := tryFallbacks net accountId amount rest
      (("GET", ep) :: t, r)
    | .ok resp =>
      if resp.status = 200 then
        let htmlRes : FindResult :=
          { status := resp.status,
            data := .html resp.textBody (jsIncludes resp.textBody accountId)
                      (jsIncludes resp.textBody amount),
            endpoint := ep,
            analysis := htmlFallbackAnalysis (jsIncludes resp.textBody accountId)
                          (jsIncludes resp.textBody amount) }
        match resp.jsonBody with
        | some v =>
          match analyzeJsonResponse v ep with
          | .ok analysis =>
            ([("GET", ep)],
             some { status := resp.status, data := .json v, endpoint := ep,
                    analysis := analysis })
          | .error _ => ([("GET", ep)], some htmlRes)
        | none => ([("GET", ep)], some htmlRes)
      else
        let (t, r) := tryFallbacks net accountId amount rest
        (("GET", ep) :: t, r)

/-- The method `ApiHelper.findTransactionsByAmount(accountId, amount)`: filter the
captured log, walk the matching captured candidates, then the static
fallbacks, and resolve 404/`noEndpointAnalysis` when everything failed.
The first component collects every `(method, endpoint)` request issued. -/
def findTransactionsByAmount (net : Net) (capturedEndpoints : List CapturedCall)
    (accountId amount : String) : List (String × String) × FindResult :=
  let transactionEndpoints := capturedEndpoints.filter (capturedMatches accountId)
  match tryCaptured net accountId amount transactionEndpoints with
  | (t1, some res) => (t1, res)
  | (t1, none) =>
    match tryFallbacks net accountId amount (fallbackEndpoints accountId) with
    | (t2, some res) => (t1 ++ t2, res)
    | (t2, none) =>
      (t1 ++ t2,
       { status := 404, data := .nullData, endpoint := "none",
         analysis := noEndpointAnalysis })

/-! ## Entropy source (`utils/DataGenerator.js`) -/

/-- The generator `DataGenerator.generateSequentialUsername(attempt)`:
`` `usr${randomHex}${nanoTime}${attemptSuffix}`.substring(0, 32) `` where
`randomHex = crypto.randomBytes(6).toString("hex")` (12 hex characters) and
`nanoTime = process.hrtime.bigint().toString().slice(-8)` (8 digits).  The
two entropy reads are external inputs and appear as explicit arguments;
their lengths are stated as hypotheses where needed. -/
def generateSequentialUsername (randomHex nanoTime : String) (attempt : Nat) : String :=
  let attemptSuffix := if attempt > 0 then "a" ++ Nat.repr attempt else ""
  jsSubstring ("usr" ++ randomHex ++ nanoTime ++ attemptSuffix) 32

/-- The generator `DataGenerator.generateUniqueUsername()`:
`` `u${hash}${now.toString().slice(-6)}` `` where `hash` is the first 12 hex
characters of a SHA-256 digest and the suffix is the last 6 digits of
`Date.now()`.  Both entropy reads are external inputs and appear as
explicit arguments. -/
def generateUniqueUsername (hash nowSuffix : String) : String :=
  "u" ++ hash ++ nowSuffix

/-! ## Registration retry controller (`RegisterPage.registerUser`) -/

/-- The signals the page exhibits to attempt number `n` of the retry loop:
whether navigation/filling/submission threw (`fillError`, landing in the
`catch`), and the outcomes of `hasUsernameExistsError`, `hasPasswordError`
and `verifyRegistrationSuccess`.  The browser is external; a run of the
loop is analysed against an arbitrary such environment. -/
structure RegistrationSignals where
  fillError : Bool := false
  usernameError : Bool := false
  passwordError : Bool := false
  success : Bool := false

/-- The page environment: attempt number to observed signals. -/
def RegistrationEnv : Type := Nat → RegistrationSignals

/-- The per-attempt entropy feed for `generateSequentialUsername`: attempt
number to the `(randomHex, nanoTime)` pair read during the regeneration
after that attempt. -/
def EntropyFeed : Type := Nat → String × String

/-- The username regenerated after attempt `attempt`. -/
def regenUsername (entropy : EntropyFeed) (attempt : Nat) : String :=
  generateSequentialUsername (entropy attempt).1 (entropy attempt).2 attempt

/-- The body of the `for (let attempt = 1; attempt <= maxAttempts;
attempt++)` loop of `registerUser`.  `fuel` counts the iterations the loop has
left (`maxAttempts - attempt + 1` at entry); the returned list records the
username used by each attempt, in order (proof instrumentation — the JS
function returns only the boolean).

Faithful control flow per iteration: a throw during navigate/fill/submit
lands in `catch` (regenerate unless on the last attempt, then next
iteration); otherwise a detected username conflict regenerates and
continues only when attempts remain — on the last attempt it *falls
through* to the password check, then to the success check; a detected
password error likewise continues only when attempts remain; a detected
success returns `true` immediately; otherwise the identity is regenerated
when attempts remain and the loop advances, returning `false` when it
exhausts. -/
def registerUserLoop (env : RegistrationEnv) (entropy : EntropyFeed)
    (maxAttempts : Nat) : Nat → Nat → String → List String → Bool × List String
  | 0, _, _, log => (false, log)
  | fuel + 1, attempt, username, log =>
    let log := log ++ [username]
    let s := env attempt
    if s.fillError then
      registerUserLoop env entropy maxAttempts fuel (attempt + 1)
        (if attempt < maxAttempts then regenUsername entropy attempt else username) log
    else if s.usernameError && decide (attempt < maxAttempts) then
      registerUserLoop env entropy maxAttempts fuel (attempt + 1)
        (regenUsername entropy attempt) log
    else if s.passwordError && decide (attempt < maxAttempts) then
      registerUserLoop env entropy maxAttempts fuel (attempt + 1) username log
    else if s.success then
      (true, log)
    else if attempt < maxAttempts then
      registerUserLoop env entropy maxAttempts fuel (attempt + 1)
        (regenUsername entropy attempt) log
    else
      registerUserLoop env entropy maxAttempts fuel (attempt + 1) username log

/-- The method `RegisterPage.registerUser(userData)` (`pages/RegisterPage.js`):
`const maxAttempts = 10`, attempts numbered 1 to 10, starting from the
caller-supplied `userData.username`.  First component: the returned
boolean; second: the usernames the attempts used. -/
def registerUser (env : RegistrationEnv) (entropy : EntropyFeed)
    (initialUsername : String) : Bool × List String :=
  registerUserLoop env entropy 10 10 1 initialUsername []

/-! ## Lemmas: the summary as a fold -/

theorem foldl_statusStep (l : List FieldCheck) : ∀ s : Summary,
    l.foldl statusStep s =
      ⟨s.passed + (l.filter (fun v => decide (v.status = .PASS))).length,
       s.failed + (l.filter (fun v => decide (v.status = .FAIL))).length,
       s.missing + (l.filter (fun v => decide (v.status = .MISSING))).length,
       s.info + (l.filter (fun v => decide (v.status = .INFO))).length⟩ := by
  induction l with
  | nil => intro s; simp
  | cons c t ih =>
    intro s
    rw [List.foldl_cons, ih]
    rcases hc : c.status <;>
      simp [statusStep, List.filter_cons, hc, Summary.mk.injEq] <;> omega

/-- The filter-count summary the code computes coincides with the single
status-counting fold the specification describes. -/
theorem mkSummary_eq_fold (l : List FieldCheck) : mkSummary l = foldStatusCounts l := by
  rw [foldStatusCounts, foldl_statusStep]
  simp [mkSummary]

/-! ## Claim C2: summary versus fold -/

/-- Concrete network oracle whose every endpoint serves an HTML page
mentioning both the probed account and amount, driving the prober into the
markup branch. -/
def netHtml : Net := fun _ _ => .ok ⟨200, none, "account 13344 paid 35.68 today"⟩

/-- C2, counterexample.  The claim asserts the summary equals the
status-counting fold for every shape "including the markup (unparseable
HTML) branch"; but on the markup branch the code hard-codes
`{passed: 0, failed: 0, missing: 0, info: 1}` while the fold over its three
checks counts the two reference checks as PASS here, so the produced
verdict refutes the claim. -/
theorem classifier_markup_summary_not_fold_cx :
    ((findTransactionsByAmount netHtml [] "13344" "35.68").2).analysis.summary ≠
      some (foldStatusCounts
        ((findTransactionsByAmount netHtml [] "13344" "35.68").2).analysis.validations) := by
  decide

/-- C2 (amended).  For every non-null raw input the summary of the classifier is
exactly the status-counting fold over its FieldCheck sequence; but in the
null-input branch the function returns before the summary is assigned (no
summary at all), and the summary of the markup branch is the constant
`{0, 0, 0, 1}` regardless of its PASS/FAIL reference checks. -/
theorem classifier_summary_fold_amended :
    (∀ (v : JsValue) (e : String) (a : Analysis),
        analyzeJsonResponse v e = Except.ok a → v ≠ JsValue.null →
        a.summary = some (foldStatusCounts a.validations)) ∧
    (∀ (e : String) (a : Analysis),
        analyzeJsonResponse JsValue.null e = Except.ok a → a.summary = none) ∧
    (∀ cA cM : Bool,
        (htmlFallbackAnalysis cA cM).summary = some (Summary.mk 0 0 0 1)) := by
  refine ⟨?_, ?_, fun _ _ => rfl⟩
  · intro v e a h hv
    cases v with
    | null => exact absurd rfl hv
    | bool b =>
      rw [analyzeJsonResponse] at h
      cases h
      exact congrArg some (mkSummary_eq_fold _)
    | num q =>
      rw [analyzeJsonResponse] at h
      cases h
      exact congrArg some (mkSummary_eq_fold _)
    | str s =>
      rw [analyzeJsonResponse] at h
      cases h
      exact congrArg some (mkSummary_eq_fold _)
    | obj kvs =>
      rw [analyzeJsonResponse] at h
      cases h
      exact congrArg some (mkSummary_eq_fold _)
    | arr xs =>
      cases xs with
      | nil =>
        rw [analyzeJsonResponse] at h
        cases h
        exact congrArg some (mkSummary_eq_fold _)
      | cons firstItem rest =>
        rw [analyzeJsonResponse] at h
        cases hf : jsObjectKeys firstItem with
        | error msg => rw [hf] at h; cases h
        | ok fields =>
          rw [hf] at h
          cases h
          exact congrArg some (mkSummary_eq_fold _)
  · intro e a h
    rw [analyzeJsonResponse] at h
    cases h
    rfl

/-- The empty-array analysis at endpoint `"w"`, for the C2 witness. -/
def emptyArrayAnalysisW : Analysis :=
  (analyzeJsonResponse (JsValue.arr []) "w").toOption.getD {}

/-- C2 witness: the amended fold law evaluated on the concrete empty-array
response. -/
theorem classifier_summary_fold_amended_witness :
    analyzeJsonResponse (JsValue.arr []) "w" = Except.ok emptyArrayAnalysisW ∧
    emptyArrayAnalysisW.summary = some (foldStatusCounts emptyArrayAnalysisW.validations) :=
  ⟨rfl, classifier_summary_fold_amended.1 (JsValue.arr []) "w" emptyArrayAnalysisW rfl
    (fun h => JsValue.noConfusion h)⟩

/-! ## Claim C8: classification is pure and idempotent -/

/-- C8 (confirmed).  `analyzeJsonResponse` reads no instance state and
writes none (its body never mentions `this`): calling it twice on the same
raw input through the stateful helper yields structurally equal verdicts
and leaves the helper state unchanged. -/
theorem classifier_idempotent (st : ApiHelperState) (v : JsValue) (e : String) :
    (analyzeJsonResponseCall st v e).2 =
      (analyzeJsonResponseCall (analyzeJsonResponseCall st v e).1 v e).2 ∧
    (analyzeJsonResponseCall st v e).1 = st :=
  ⟨rfl, rfl⟩

/-! ## Claim C10: the capture log is append-only -/

/-- C10, counterexample.  The JSON-response log is guarded by `if (data)`,
i.e. JS truthiness, not by a null test: the non-null response `0` is
captured into the endpoint log but *not* appended to the JSON log, refuting
"appends ... exactly when the supplied data is non-null". -/
theorem storeCapturedEndpoint_truthiness_cx :
    (storeCapturedEndpoint ⟨[], []⟩ "/a" "GET" (JsValue.num 0) 5 6).jsonResponses = [] ∧
    (storeCapturedEndpoint ⟨[], []⟩ "/a" "GET" (JsValue.num 0) 5 6).capturedEndpoints.length = 1 ∧
    JsValue.num 0 ≠ JsValue.null :=
  ⟨rfl, rfl, fun h => JsValue.noConfusion h⟩

/-- C10 (amended).  Every call appends exactly one record to the captured
log, appends one record to the JSON log exactly when the supplied data is
*truthy* (non-null alone is not enough: `0`, `""` and `false` are skipped),
and both logs keep every existing entry as an unchanged prefix, so their
lengths never decrease — the only writes to either log in the helper are
these two pushes. -/
theorem storeCapturedEndpoint_append_amended (st : ApiHelperState)
    (e m : String) (d : JsValue) (n1 n2 : Nat) :
    (storeCapturedEndpoint st e m d n1 n2).capturedEndpoints
        = st.capturedEndpoints ++ [⟨e, m, d, n1⟩] ∧
    (storeCapturedEndpoint st e m d n1 n2).jsonResponses
        = st.jsonResponses ++ (if jsTruthy d then [⟨e, m, d, n2⟩] else []) := by
  unfold storeCapturedEndpoint
  by_cases h : jsTruthy d <;> simp [h]

/-! ## Claim C9: the amount-field literals -/

/-- JS `parseFloat("35.68")` resolves syntactically to the mantissa
`35` `.` `68` with no exponent. -/
theorem jsParseFloat_3568_syntactic :
    jsParseFloat "35.68" = some (decimalValue ['3', '5'] ['6', '8'] 0) := rfl

/-- And that mantissa denotes exactly the rational `35.68`. -/
theorem jsParseFloat_3568 : jsParseFloat "35.68" = some (3568 / 100 : ℚ) := by
  rw [jsParseFloat_3568_syntactic]
  have h1 : digitsToNat ['3', '5'] = 35 := by decide
  have h2 : digitsToNat ['6', '8'] = 68 := by decide
  rw [decimalValue, h1, h2]
  norm_num

/-- The analysis of `[{amount: "35.68"}]`, for C9. -/
def amountPassAnalysis : Analysis :=
  (analyzeJsonResponse (.arr [.obj [("amount", .str "35.68")]]) "e").toOption.getD {}

/-- The analysis of `[{amount: "abc"}]`, for C9. -/
def amountFailAnalysis : Analysis :=
  (analyzeJsonResponse (.arr [.obj [("amount", .str "abc")]]) "e").toOption.getD {}

/-- C9, counterexample.  For the unparseable input `"abc"` the secondary
amount check FAILs with the literal reason string of the code, `"not_a_number"`;
no check in the verdict carries the claimed reason `"not a number"`. -/
theorem amount_check_reason_cx :
    (amountFailAnalysis.validations.filter
        (fun c => decide (c.reason = some "not a number"))).length = 0 ∧
    (amountFailAnalysis.validations.filter
        (fun c => decide (c.field = "amount") && decide (c.status = .FAIL) &&
          decide (c.reason = some "not_a_number"))).length = 1 := by
  constructor <;> decide

/-- C9 (amended).  The secondary amount check on `"35.68"` yields a PASS
FieldCheck whose value is the parsed number `35.68` (tagged
`valid_number`), and on `"abc"` a FAIL FieldCheck whose reason is the
literal `"not_a_number"` (underscores, as written in the source) carrying
the raw string. -/
theorem amount_check_literals_amended :
    amountChecks (.obj [("amount", .str "35.68")]) =
      [{ field := "amount", status := .PASS, value := some (.num (3568 / 100 : ℚ)),
         validation := some "valid_number" }] ∧
    amountChecks (.obj [("amount", .str "abc")]) =
      [{ field := "amount", status := .FAIL, value := some (.str "abc"),
         reason := some "not_a_number" }] ∧
    amountPassAnalysis.validations.any (fun c =>
      decide (c.field = "amount") && decide (c.status = .PASS) &&
        decide (c.validation = some "valid_number")) = true := by
  have hget : jsGetField (.obj [("amount", JsValue.str "35.68")]) "amount" =
      some (.str "35.68") := rfl
  have hget2 : jsGetField (.obj [("amount", JsValue.str "abc")]) "amount" =
      some (.str "abc") := rfl
  refine ⟨?_, ?_, by decide⟩
  · simp only [amountChecks, hget, jsParseFloatValue, jsParseFloat_3568]
  · simp only [amountChecks, hget2, jsParseFloatValue]
    have : jsParseFloat "abc" = none := by decide
    simp [this]

/-! ## Claim C4: one presence check per schema field -/

/-- The filter picking out presence checks for field `f`: PASS or MISSING
status and no secondary-validation tag. -/
def presencePred (f : String) (c : FieldCheck) : Bool :=
  decide (c.field = f) && (decide (c.status = .PASS) || decide (c.status = .MISSING)) &&
    decide (c.validation = none)

theorem presencePred_presenceCheck (item : JsValue) (fields : List String)
    (g f : String) : presencePred f (presenceCheck item fields g) = decide (g = f) := by
  by_cases h : g ∈ fields <;> simp [presencePred, presenceCheck, h]

theorem amountChecks_no_presencePred (item : JsValue) (f : String) :
    (amountChecks item).filter (presencePred f) = [] := by
  rcases hg : jsGetField item "amount" with _ | av
  · simp [amountChecks, hg]
  · rcases hp : jsParseFloatValue av with _ | q <;>
      simp [amountChecks, hg, hp, presencePred]

theorem accountIdChecks_no_presencePred (item : JsValue) (f : String) :
    (accountIdChecks item).filter (presencePred f) = [] := by
  rcases hg : jsGetField item "accountId" with _ | av
  · simp [accountIdChecks, hg]
  · rcases hp : jsParseIntValue av with _ | n <;>
      simp [accountIdChecks, hg, hp, presencePred]

theorem dateChecks_no_presencePred (item : JsValue) (f : String) :
    (dateChecks item).filter (presencePred f) = [] := by
  rcases hg : jsGetField item "date" with _ | dv
  · simp [dateChecks, hg]
  · by_cases hd : jsDateParseValid dv <;>
      simp [dateChecks, hg, hd, presencePred]

theorem countP_transactionFields (f : String) (hf : f ∈ transactionFields) :
    transactionFields.countP (fun g => decide (g = f)) = 1 := by
  fin_cases hf <;> decide

theorem jsParseIndex_some {f : String} {n : Nat} (h : jsParseIndex f = some n) :
    Nat.repr n = f := by
  rw [jsParseIndex] at h
  rcases ht : f.toNat? with _ | m <;> rw [ht] at h <;> dsimp only at h
  · cases h
  · split at h
    · cases h; assumption
    · cases h

/-- A defined field is listed by `Object.keys`: if reading `f` off `item`
yields a value, `f` is among the keys `jsObjectKeys` reports. -/
theorem jsGetField_some_mem_keys (item : JsValue) (f : String) (ks : List String)
    (v : JsValue) (hk : jsObjectKeys item = .ok ks) (hg : jsGetField item f = some v) :
    f ∈ ks := by
  cases item with
  | null => cases hg
  | bool b => cases hg
  | num q => cases hg
  | obj kvs =>
    rw [jsObjectKeys] at hk
    cases hk
    rw [jsGetField] at hg
    rcases Option.map_eq_some'.mp hg with ⟨p, hfind, -⟩
    have hmem := List.mem_of_find?_eq_some hfind
    have hbeq := List.find?_some hfind
    have hp : p.1 = f := by simpa using hbeq
    exact hp ▸ List.mem_map_of_mem (·.1) hmem
  | arr xs =>
    rw [jsObjectKeys] at hk
    cases hk
    rw [jsGetField] at hg
    rcases hi : jsParseIndex f with _ | n <;> rw [hi] at hg <;> dsimp only at hg
    · cases hg
    · have hlt : n < xs.length := (List.get?_eq_some.mp hg).1
      exact jsParseIndex_some hi ▸ List.mem_map_of_mem Nat.repr (List.mem_range.mpr hlt)
  | str s =>
    rw [jsObjectKeys] at hk
    cases hk
    rw [jsGetField] at hg
    rcases hi : jsParseIndex f with _ | n <;> rw [hi] at hg <;> dsimp only at hg
    · cases hg
    · rcases Option.map_eq_some'.mp hg with ⟨c, hc, -⟩
      have hlt : n < s.data.length := (List.get?_eq_some.mp hc).1
      exact jsParseIndex_some hi ▸ List.mem_map_of_mem Nat.repr (List.mem_range.mpr hlt)

theorem mem_amountChecks {item : JsValue} {c : FieldCheck} (hc : c ∈ amountChecks item) :
    c.field = "amount" ∧ (∃ av, jsGetField item "amount" = some av) ∧
      (c.status = .PASS ∨ c.status = .FAIL) := by
  rcases hg : jsGetField item "amount" with _ | av <;> rw [amountChecks, hg] at hc <;>
      dsimp only at hc
  · cases hc
  · rcases hp : jsParseFloatValue av with _ | q <;> rw [hp] at hc <;>
      simp only [List.mem_singleton] at hc <;> subst hc <;>
      exact ⟨rfl, ⟨av, rfl⟩, by simp⟩

theorem mem_accountIdChecks {item : JsValue} {c : FieldCheck} (hc : c ∈ accountIdChecks item) :
    c.field = "accountId" ∧ (∃ av, jsGetField item "accountId" = some av) ∧
      (c.status = .PASS ∨ c.status = .FAIL) := by
  rcases hg : jsGetField item "accountId" with _ | av <;> rw [accountIdChecks, hg] at hc <;>
      dsimp only at hc
  · cases hc
  · rcases hp : jsParseIntValue av with _ | n <;> rw [hp] at hc <;>
      simp only [List.mem_singleton] at hc <;> subst hc <;>
      exact ⟨rfl, ⟨av, rfl⟩, by simp⟩

theorem mem_dateChecks {item : JsValue} {c : FieldCheck} (hc : c ∈ dateChecks item) :
    c.field = "date" ∧ (∃ av, jsGetField item "date" = some av) ∧
      (c.status = .PASS ∨ c.status = .FAIL) := by
  rcases hg : jsGetField item "date" with _ | dv <;> rw [dateChecks, hg] at hc <;>
      dsimp only at hc
  · cases hc
  · by_cases hd : jsDateParseValid dv
    · rw [if_pos hd] at hc
      simp only [List.mem_singleton] at hc
      subst hc
      exact ⟨rfl, ⟨dv, rfl⟩, by simp⟩
    · rw [if_neg hd] at hc
      simp only [List.mem_singleton] at hc
      subst hc
      exact ⟨rfl, ⟨dv, rfl⟩, by simp⟩

/-- C4 (amended).  For every response classified as a non-empty array, each
declared transaction-schema field yields exactly one *presence* FieldCheck
(PASS if present, MISSING if absent; these carry no secondary-validation
tag), and no field gets both a PASS and a MISSING check.  However the
ad-hoc secondary validations layer further PASS/FAIL checks on top for
`amount`, `accountId` and `date` when present, so such a field can carry
*two* PASS-or-MISSING-status checks in the verdict (see the
counterexample). -/
theorem classifier_schema_presence_amended
    (firstItem : JsValue) (rest : List JsValue) (e : String) (a : Analysis)
    (f : String) (hf : f ∈ transactionFields)
    (h : analyzeJsonResponse (.arr (firstItem :: rest)) e = Except.ok a) :
    (a.validations.filter (presencePred f)).length = 1 ∧
    ¬((∃ c ∈ a.validations, c.field = f ∧ c.status = .PASS) ∧
      (∃ c ∈ a.validations, c.field = f ∧ c.status = .MISSING)) := by
  rw [analyzeJsonResponse] at h
  cases hk : jsObjectKeys firstItem with
  | error m => rw [hk] at h; cases h
  | ok fields =>
    rw [hk] at h
    cases h
    constructor
    · show ((transactionValidations firstItem fields).filter (presencePred f)).length = 1
      rw [transactionValidations]
      rw [List.filter_append, List.filter_append, List.filter_append,
        amountChecks_no_presencePred, accountIdChecks_no_presencePred,
        dateChecks_no_presencePred]
      simp only [List.append_nil]
      rw [← List.countP_eq_length_filter, List.countP_map]
      have : transactionFields.countP ((presencePred f) ∘ (presenceCheck firstItem fields)) =
          transactionFields.countP (fun g => decide (g = f)) := by
        simp only [Function.comp_def, presencePred_presenceCheck]
      rw [this, countP_transactionFields f hf]
    · rintro ⟨⟨c1, hc1, hf1, hs1⟩, ⟨c2, hc2, hf2, hs2⟩⟩
      replace hc1 :
          c1 ∈ transactionFields.map (presenceCheck firstItem fields) ++ amountChecks firstItem
            ++ accountIdChecks firstItem ++ dateChecks firstItem := hc1
      replace hc2 :
          c2 ∈ transactionFields.map (presenceCheck firstItem fields) ++ amountChecks firstItem
            ++ accountIdChecks firstItem ++ dateChecks firstItem := hc2
      have hnotmem : f ∉ fields := by
        rcases List.mem_append.mp hc2 with h2 | hdate
        · rcases List.mem_append.mp h2 with h2 | hacc
          · rcases List.mem_append.mp h2 with hmap | ham
            · rcases List.mem_map.mp hmap with ⟨g, -, hg⟩
              subst hg
              by_cases hin : g ∈ fields
              · simp [presenceCheck, hin] at hs2
              · have hgf : g = f := by simpa [presenceCheck, hin] using hf2
                simpa [← hgf] using hin
            · rcases (mem_amountChecks ham).2.2 with h | h <;> rw [h] at hs2 <;> cases hs2
          · rcases (mem_accountIdChecks hacc).2.2 with h | h <;> rw [h] at hs2 <;> cases hs2
        · rcases (mem_dateChecks hdate).2.2 with h | h <;> rw [h] at hs2 <;> cases hs2
      apply hnotmem
      rcases List.mem_append.mp hc1 with h1 | hdate
      · rcases List.mem_append.mp h1 with h1 | hacc
        · rcases List.mem_append.mp h1 with hmap | ham
          · rcases List.mem_map.mp hmap with ⟨g, -, hg⟩
            subst hg
            by_cases hin : g ∈ fields
            · have hgf : g = f := by simpa [presenceCheck, hin] using hf1
              exact hgf ▸ hin
            · simp [presenceCheck, hin] at hs1
          · obtain ⟨hfield, ⟨av, hav⟩, -⟩ := mem_amountChecks ham
            have hfa : f = "amount" := by rw [← hf1, hfield]
            rw [hfa]
            exact jsGetField_some_mem_keys firstItem "amount" fields av hk hav
        · obtain ⟨hfield, ⟨av, hav⟩, -⟩ := mem_accountIdChecks hacc
          have hfa : f = "accountId" := by rw [← hf1, hfield]
          rw [hfa]
          exact jsGetField_some_mem_keys firstItem "accountId" fields av hk hav
      · obtain ⟨hfield, ⟨av, hav⟩, -⟩ := mem_dateChecks hdate
        have hfa : f = "date" := by rw [← hf1, hfield]
        rw [hfa]
        exact jsGetField_some_mem_keys firstItem "date" fields av hk hav

/-- The analysis of `[{amount: "35.68"}]`, for the C4 counterexample. -/
def doublePassAnalysis : Analysis :=
  (analyzeJsonResponse (.arr [.obj [("amount", .str "35.68")]]) "cx").toOption.getD {}

/-- C4, counterexample.  On `[{amount: "35.68"}]` the schema field `amount`
contributes *two* FieldChecks of status PASS (presence check plus secondary
numeric check), refuting "exactly one FieldCheck whose status is PASS or
MISSING". -/
theorem classifier_schema_double_pass_cx :
    (doublePassAnalysis.validations.filter (fun c => decide (c.field = "amount") &&
      (decide (c.status = .PASS) || decide (c.status = .MISSING)))).length = 2 := by
  decide

/-- The analysis of `[{id: "7"}]`, for the C4 witness. -/
def presenceWitnessAnalysis : Analysis :=
  (analyzeJsonResponse (.arr [.obj [("id", .str "7")]]) "w4").toOption.getD {}

/-- C4 witness: the amended presence law evaluated on `[{id: "7"}]` for the
schema field `id`. -/
theorem classifier_schema_presence_amended_witness :
    (presenceWitnessAnalysis.validations.filter (presencePred "id")).length = 1 ∧
    ¬((∃ c ∈ presenceWitnessAnalysis.validations, c.field = "id" ∧ c.status = .PASS) ∧
      (∃ c ∈ presenceWitnessAnalysis.validations, c.field = "id" ∧ c.status = .MISSING)) :=
  classifier_schema_presence_amended (.obj [("id", .str "7")]) [] "w4"
    presenceWitnessAnalysis "id" (by decide) rfl

/-! ## Claim C3: the candidate order -/

/-- When every request errors, the captured-candidate loop issues one
request per candidate, in list order. -/
theorem tryCaptured_err (net : Net) (accountId amount msg : String)
    (hnet : ∀ m e, net m e = .err msg) :
    ∀ caps : List CapturedCall,
      (∀ c ∈ caps, c.method = "GET" ∨ c.method = "POST") →
      tryCaptured net accountId amount caps =
        (caps.map (fun c => (c.method, c.endpoint)), none) := by
  intro caps
  induction caps with
  | nil => intro _; rfl
  | cons c t ih =>
    intro hm
    have hc := hm c (List.mem_cons_self c t)
    rw [tryCaptured, if_pos hc, hnet]
    dsimp only
    rw [ih (fun x hx => hm x (List.mem_cons_of_mem c hx))]
    simp

/-- When every request errors, the fallback loop issues one GET per static
endpoint, in list order. -/
theorem tryFallbacks_err (net : Net) (accountId amount msg : String)
    (hnet : ∀ m e, net m e = .err msg) :
    ∀ eps : List String,
      tryFallbacks net accountId amount eps =
        (eps.map (fun e => ("GET", e)), none) := by
  intro eps
  induction eps with
  | nil => rfl
  | cons ep t ih =>
    rw [tryFallbacks, hnet]
    dsimp only
    rw [ih]
    simp

/-- C3 (amended).  The ordered candidate list the prober tries is: the
captured calls matching the topic keywords of the query in *capture (insertion)
order — i.e. oldest first, not most-recent-first* — followed by the static
fallback endpoints.  (Stated on a run in which every candidate fails, so
the full order is observable in the request trace.) -/
theorem prober_candidate_order_amended (net : Net) (caps : List CapturedCall)
    (accountId amount msg : String)
    (hnet : ∀ m e, net m e = .err msg)
    (hm : ∀ c ∈ caps, c.method = "GET" ∨ c.method = "POST") :
    (findTransactionsByAmount net caps accountId amount).1 =
      ((caps.filter (capturedMatches accountId)).map (fun c => (c.method, c.endpoint)))
        ++ (fallbackEndpoints accountId).map (fun e => ("GET", e)) := by
  rw [findTransactionsByAmount]
  rw [tryCaptured_err net accountId amount msg hnet _
    (fun c hc => hm c (List.mem_of_mem_filter hc))]
  dsimp only
  rw [tryFallbacks_err net accountId amount msg hnet]

/-- Network oracle on which every request throws, for C3. -/
def netDown : Net := fun _ _ => .err "down"

/-- A captured transaction call observed early in the run, for C3. -/
def capOld : CapturedCall := ⟨"/bank/transaction/old", "GET", .null, 1⟩

/-- A captured transaction call observed later in the run, for C3. -/
def capNew : CapturedCall := ⟨"/bank/transaction/new", "GET", .null, 2⟩

/-- C3 witness: the amended order law evaluated on two matching captured
calls and a dead network. -/
theorem prober_candidate_order_amended_witness :
    (findTransactionsByAmount netDown [capOld, capNew] "99" "5").1 =
      (([capOld, capNew].filter (capturedMatches "99")).map (fun c => (c.method, c.endpoint)))
        ++ (fallbackEndpoints "99").map (fun e => ("GET", e)) :=
  prober_candidate_order_amended netDown [capOld, capNew] "99" "5" "down"
    (fun _ _ => rfl) (by decide)

/-- C3, counterexample.  With two matching captured calls, the earlier
(timestamp 1) is tried before the later (timestamp 2): the trace is in
capture order, not the claimed most-recent-first order. -/
theorem prober_candidate_order_cx :
    (findTransactionsByAmount netDown [capOld, capNew] "99" "5").1 =
      ("GET", "/bank/transaction/old") :: ("GET", "/bank/transaction/new")
        :: (fallbackEndpoints "99").map (fun e => ("GET", e)) ∧
    capOld.timestamp < capNew.timestamp ∧
    (findTransactionsByAmount netDown [capOld, capNew] "99" "5").1 ≠
      ("GET", "/bank/transaction/new") :: ("GET", "/bank/transaction/old")
        :: (fallbackEndpoints "99").map (fun e => ("GET", e)) := by
  exact ⟨by decide, by decide, by decide⟩

/-! ## Claim C7: first clean success short-circuits -/

/-- A captured candidate fails in the loop: unusable method (no request is
even issued), request error, non-200 status, unparseable body, or a parsed
array containing `null` (whose processing throws a `TypeError` that the
loop catches). -/
def capturedFails (net : Net) (c : CapturedCall) : Prop :=
  (c.method ≠ "GET" ∧ c.method ≠ "POST") ∨
  (∃ msg, net c.method c.endpoint = .err msg) ∨
  (∃ r, net c.method c.endpoint = .ok r ∧
    (r.status ≠ 200 ∨ r.jsonBody = none ∨
      ∃ xs, r.jsonBody = some (.arr xs) ∧ JsValue.null ∈ xs))

/-- A captured candidate succeeds cleanly: usable method, HTTP 200,
parseable body, and no `null` array element to trip the post-processing. -/
def capturedCleanSuccess (net : Net) (c : CapturedCall) (r : NetResponse)
    (v : JsValue) : Prop :=
  (c.method = "GET" ∨ c.method = "POST") ∧ net c.method c.endpoint = .ok r ∧
    r.status = 200 ∧ r.jsonBody = some v ∧
    (∀ xs, v = .arr xs → JsValue.null ∉ xs)

theorem filterMatchesE_ok (amount : String) :
    ∀ xs : List JsValue, JsValue.null ∉ xs →
      ∃ l, filterMatchesE amount xs = .ok l := by
  intro xs
  induction xs with
  | nil => exact fun _ => ⟨[], rfl⟩
  | cons a l ih =>
    intro h
    have ha : a ≠ JsValue.null := fun he => h (he ▸ List.mem_cons_self a l)
    have hl : JsValue.null ∉ l := fun he => h (List.mem_cons_of_mem a he)
    obtain ⟨r, hr⟩ := ih hl
    cases a with
    | null => exact absurd rfl ha
    | bool b => simp only [filterMatchesE, hr]; exact ⟨_, rfl⟩
    | num q => simp only [filterMatchesE, hr]; exact ⟨_, rfl⟩
    | str s => simp only [filterMatchesE, hr]; exact ⟨_, rfl⟩
    | arr elems => simp only [filterMatchesE, hr]; exact ⟨_, rfl⟩
    | obj kvs => simp only [filterMatchesE, hr]; exact ⟨_, rfl⟩

theorem filterMatchesE_err (amount : String) :
    ∀ xs : List JsValue, JsValue.null ∈ xs →
      ∃ msg, filterMatchesE amount xs = .error msg := by
  intro xs
  induction xs with
  | nil => intro h; cases h
  | cons a l ih =>
    intro h
    cases a with
    | null => exact ⟨_, rfl⟩
    | bool b =>
      obtain ⟨m, hm⟩ := ih (by simpa using h)
      simp only [filterMatchesE, hm]; exact ⟨_, rfl⟩
    | num q =>
      obtain ⟨m, hm⟩ := ih (by simpa using h)
      simp only [filterMatchesE, hm]; exact ⟨_, rfl⟩
    | str s =>
      obtain ⟨m, hm⟩ := ih (by simpa using h)
      simp only [filterMatchesE, hm]; exact ⟨_, rfl⟩
    | arr elems =>
      obtain ⟨m, hm⟩ := ih (by simpa using h)
      simp only [filterMatchesE, hm]; exact ⟨_, rfl⟩
    | obj kvs =>
      obtain ⟨m, hm⟩ := ih (by simpa using h)
      simp only [filterMatchesE, hm]; exact ⟨_, rfl⟩

theorem analyzeJsonResponse_ok (v : JsValue) (e : String)
    (hclean : ∀ xs, v = .arr xs → JsValue.null ∉ xs) :
    ∃ a, analyzeJsonResponse v e = .ok a := by
  cases v with
  | null => exact ⟨_, rfl⟩
  | bool b => exact ⟨_, rfl⟩
  | num q => exact ⟨_, rfl⟩
  | str s => exact ⟨_, rfl⟩
  | obj kvs => exact ⟨_, rfl⟩
  | arr xs =>
    cases xs with
    | nil => exact ⟨_, rfl⟩
    | cons firstItem rest =>
      have hne : firstItem ≠ JsValue.null := by
        intro he
        exact hclean (firstItem :: rest) rfl (he ▸ List.mem_cons_self firstItem rest)
      cases firstItem with
      | null => exact absurd rfl hne
      | bool b => exact ⟨_, rfl⟩
      | num q => exact ⟨_, rfl⟩
      | str s => exact ⟨_, rfl⟩
      | arr elems => exact ⟨_, rfl⟩
      | obj kvs => exact ⟨_, rfl⟩

theorem processCapturedJson_ok (v : JsValue) (e amount : String)
    (hclean : ∀ xs, v = .arr xs → JsValue.null ∉ xs) :
    ∃ res, processCapturedJson v e amount = .ok res ∧
      res.endpoint = e ∧ res.status = 200 ∧ res.originalData = some v := by
  obtain ⟨a, ha⟩ := analyzeJsonResponse_ok v e hclean
  cases v with
  | arr xs =>
    obtain ⟨l, hl⟩ := filterMatchesE_ok amount xs (hclean xs rfl)
    rw [processCapturedJson, ha]
    dsimp only
    rw [hl]
    exact ⟨_, rfl, rfl, rfl, rfl⟩
  | null => rw [processCapturedJson, ha]; exact ⟨_, rfl, rfl, rfl, rfl⟩
  | bool b => rw [processCapturedJson, ha]; exact ⟨_, rfl, rfl, rfl, rfl⟩
  | num q => rw [processCapturedJson, ha]; exact ⟨_, rfl, rfl, rfl, rfl⟩
  | str s => rw [processCapturedJson, ha]; exact ⟨_, rfl, rfl, rfl, rfl⟩
  | obj kvs => rw [processCapturedJson, ha]; exact ⟨_, rfl, rfl, rfl, rfl⟩

theorem processCapturedJson_arr_null (xs : List JsValue) (e amount : String)
    (h : JsValue.null ∈ xs) :
    ∃ msg, processCapturedJson (.arr xs) e amount = .error msg := by
  cases ha : analyzeJsonResponse (.arr xs) e with
  | error m => rw [processCapturedJson, ha]; exact ⟨_, rfl⟩
  | ok a =>
    obtain ⟨m, hm⟩ := filterMatchesE_err amount xs h
    rw [processCapturedJson, ha]
    dsimp only
    rw [hm]
    exact ⟨_, rfl⟩

/-- A failing captured candidate contributes its request (when its method
is usable) and the loop moves on with the same eventual outcome. -/
theorem tryCaptured_cons_fail (net : Net) (accountId amount : String)
    (p : CapturedCall) (rest : List CapturedCall)
    (hfp : capturedFails net p) :
    tryCaptured net accountId amount (p :: rest) =
      ((if p.method = "GET" ∨ p.method = "POST" then [(p.method, p.endpoint)] else [])
          ++ (tryCaptured net accountId amount rest).1,
        (tryCaptured net accountId amount rest).2) := by
  by_cases hval : p.method = "GET" ∨ p.method = "POST"
  · rw [if_pos hval]
    rcases hfp with ⟨h1, h2⟩ | ⟨msg, hmsg⟩ | ⟨r', hr', hbad⟩
    · rcases hval with h | h <;> contradiction
    · rw [tryCaptured, if_pos hval, hmsg]
      simp
    · rw [tryCaptured, if_pos hval, hr']
      dsimp only
      rcases hbad with hstat | hnone | ⟨xs, hxs, hmem⟩
      · rw [if_neg hstat]
        simp
      · by_cases hs : r'.status = 200
        · rw [if_pos hs, hnone]
          simp
        · rw [if_neg hs]
          simp
      · by_cases hs : r'.status = 200
        · rw [if_pos hs, hxs]
          dsimp only
          obtain ⟨m, hm⟩ := processCapturedJson_arr_null xs p.endpoint amount hmem
          rw [hm]
          simp
        · rw [if_neg hs]
          simp
  · rw [if_neg hval, tryCaptured, if_neg hval]
    simp

/-- A cleanly succeeding captured candidate returns immediately with its
processed verdict. -/
theorem tryCaptured_cons_success (net : Net) (accountId amount : String)
    (c : CapturedCall) (post : List CapturedCall) (r : NetResponse) (v : JsValue)
    (hs : capturedCleanSuccess net c r v) :
    ∃ res, processCapturedJson v c.endpoint amount = .ok res ∧
      tryCaptured net accountId amount (c :: post) =
        ([(c.method, c.endpoint)], some res) := by
  obtain ⟨hmeth, hnet, hstat, hbody, hclean⟩ := hs
  obtain ⟨res, hres, -, -, -⟩ := processCapturedJson_ok v c.endpoint amount hclean
  refine ⟨res, hres, ?_⟩
  rw [tryCaptured, if_pos hmeth, hnet]
  dsimp only
  rw [if_pos hstat, hbody]
  dsimp only
  rw [hres]

/-- C7 (amended).  If a captured candidate yields HTTP status exactly 200
(the code tests `status === 200`, not membership in the 2xx class) with a
parseable body that — when it is an array — contains no `null` element,
and every earlier captured candidate fails, then the prober returns that
processed verdict of that candidate, and the only requests issued are to the
earlier candidates and to it: later captured candidates and the static
fallbacks are never called. -/
theorem prober_short_circuit_amended (net : Net) (caps : List CapturedCall)
    (accountId amount : String) (pre : List CapturedCall) (c : CapturedCall)
    (post : List CapturedCall) (r : NetResponse) (v : JsValue)
    (hsplit : caps.filter (capturedMatches accountId) = pre ++ c :: post)
    (hpre : ∀ c' ∈ pre, capturedFails net c')
    (hsucc : capturedCleanSuccess net c r v) :
    ∃ res, processCapturedJson v c.endpoint amount = .ok res ∧
      findTransactionsByAmount net caps accountId amount =
        ((pre.filter (fun c' => decide (c'.method = "GET") || decide (c'.method = "POST"))).map
            (fun c' => (c'.method, c'.endpoint)) ++ [(c.method, c.endpoint)], res) := by
  have key : ∀ pre' : List CapturedCall, (∀ c' ∈ pre', capturedFails net c') →
      ∃ res, processCapturedJson v c.endpoint amount = .ok res ∧
        tryCaptured net accountId amount (pre' ++ c :: post) =
          ((pre'.filter (fun c' => decide (c'.method = "GET") || decide (c'.method = "POST"))).map
              (fun c' => (c'.method, c'.endpoint)) ++ [(c.method, c.endpoint)], some res) := by
    intro pre'
    induction pre' with
    | nil =>
      intro _
      simpa using tryCaptured_cons_success net accountId amount c post r v hsucc
    | cons p t ih =>
      intro hp
      obtain ⟨res, hres, htr⟩ := ih (fun x hx => hp x (List.mem_cons_of_mem p hx))
      refine ⟨res, hres, ?_⟩
      rw [List.cons_append,
        tryCaptured_cons_fail net accountId amount p (t ++ c :: post)
          (hp p (List.mem_cons_self p t)), htr]
      by_cases hval : p.method = "GET" ∨ p.method = "POST"
      · rcases hval with h | h <;> simp [List.filter_cons, h]
      · have h1 : ¬p.method = "GET" := fun h => hval (Or.inl h)
        have h2 : ¬p.method = "POST" := fun h => hval (Or.inr h)
        simp [List.filter_cons, h1, h2, hval]
  obtain ⟨res, hres, htr⟩ := key pre hpre
  refine ⟨res, hres, ?_⟩
  rw [findTransactionsByAmount, hsplit, htr]

/-- A captured transaction call, for the C7 witness. -/
def capTx7 : CapturedCall := ⟨"/transaction/a", "GET", .null, 1⟩

/-- Network for the C7 witness: the captured endpoint answers 200 with a
clean JSON array, everything else errors. -/
def netC7 : Net := fun _ e =>
  if e = "/transaction/a" then .ok ⟨200, some (.arr [.obj [("id", .str "1")]]), "raw"⟩
  else .err "down"

/-- C7 witness: the amended short-circuit law evaluated on one cleanly
succeeding captured candidate — the only request issued is that one. -/
theorem prober_short_circuit_amended_witness :
    (findTransactionsByAmount netC7 [capTx7] "99" "5").1 = [("GET", "/transaction/a")] := by
  obtain ⟨res, -, heq⟩ := prober_short_circuit_amended netC7 [capTx7] "99" "5" [] capTx7 []
    ⟨200, some (.arr [.obj [("id", .str "1")]]), "raw"⟩ (.arr [.obj [("id", .str "1")]])
    rfl (fun c' hc' => absurd hc' (List.not_mem_nil c'))
    ⟨Or.inl rfl, rfl, rfl, rfl, fun xs hxs => by cases hxs; simp⟩
  rw [heq]
  rfl

/-- A captured transaction call, for the C7 counterexample. -/
def capTxCx : CapturedCall := ⟨"/transaction/b", "GET", .null, 1⟩

/-- Network for the C7 counterexample: the captured endpoint answers HTTP
201 (a 2xx status) with a parseable JSON body, everything else errors. -/
def netC7cx : Net := fun _ e =>
  if e = "/transaction/b" then .ok ⟨201, some (.arr [.obj [("id", .str "1")]]), "body"⟩
  else .err "down"

/-- C7, counterexample.  The captured candidate yields a 2xx (201)
response whose body parses as structured data, yet the prober — which
requires `status === 200` — does not return its verdict and goes on to
issue every static fallback request, refuting the claim as stated. -/
theorem prober_2xx_not_honored_cx :
    (findTransactionsByAmount netC7cx [capTxCx] "99" "5").1 =
      ("GET", "/transaction/b") :: (fallbackEndpoints "99").map (fun e => ("GET", e)) ∧
    (match netC7cx "GET" "/transaction/b" with
      | .ok r => 200 ≤ r.status ∧ r.status < 300 ∧ r.jsonBody.isSome = true
      | .err _ => False) :=
  ⟨by decide, by decide, by decide, rfl⟩

/-! ## Lemmas: generated usernames -/

theorem repr_length_one : ∀ a ≤ 9, 1 ≤ a → (Nat.repr a).length = 1 := by decide

theorem repr_data_inj : ∀ a ≤ 9, ∀ b ≤ 9,
    (Nat.repr a).data = (Nat.repr b).data → a = b := by decide

/-- With its documented entropy shapes (12 hex characters, 8 digits) and an
attempt number between 1 and 9, a sequential username is 25 characters
long — under the 32-character cap, so nothing is truncated. -/
theorem generateSequentialUsername_length (h n : String) (a : Nat)
    (hh : h.length = 12) (hn : n.length = 8) (ha1 : 1 ≤ a) (ha9 : a ≤ 9) :
    (generateSequentialUsername h n a).length = 25 := by
  have hrepr : (Nat.repr a).length = 1 := repr_length_one a ha9 ha1
  rw [generateSequentialUsername]
  rw [if_pos (by omega : a > 0)]
  show (("usr" ++ h ++ n ++ ("a" ++ Nat.repr a)).data.take 32).length = 25
  rw [List.length_take]
  have hfull : ("usr" ++ h ++ n ++ ("a" ++ Nat.repr a)).length = 25 := by
    rw [String.length_append, String.length_append, String.length_append,
      String.length_append, hh, hn, hrepr]
    decide
  have : ("usr" ++ h ++ n ++ ("a" ++ Nat.repr a)).data.length = 25 := hfull
  omega

/-- Two sequential usernames generated at distinct attempt numbers in
`1..9` differ, whatever entropy each read: the attempt suffix survives
truncation and pins the attempt number. -/
theorem generateSequentialUsername_inj (h1 n1 h2 n2 : String) (i j : Nat)
    (hh1 : h1.length = 12) (hn1 : n1.length = 8)
    (hh2 : h2.length = 12) (hn2 : n2.length = 8)
    (hi1 : 1 ≤ i) (hi9 : i ≤ 9) (hj1 : 1 ≤ j) (hj9 : j ≤ 9)
    (heq : generateSequentialUsername h1 n1 i = generateSequentialUsername h2 n2 j) :
    i = j := by
  rw [generateSequentialUsername, generateSequentialUsername,
    if_pos (by omega : i > 0), if_pos (by omega : j > 0)] at heq
  have hd : ("usr" ++ h1 ++ n1 ++ ("a" ++ Nat.repr i)).data.take 32 =
      ("usr" ++ h2 ++ n2 ++ ("a" ++ Nat.repr j)).data.take 32 := congrArg String.data heq
  have hlen1 : ("usr" ++ h1 ++ n1 ++ ("a" ++ Nat.repr i)).data.length = 25 := by
    show ("usr" ++ h1 ++ n1 ++ ("a" ++ Nat.repr i)).length = 25
    rw [String.length_append, String.length_append, String.length_append,
      String.length_append, hh1, hn1, repr_length_one i hi9 hi1]
    decide
  have hlen2 : ("usr" ++ h2 ++ n2 ++ ("a" ++ Nat.repr j)).data.length = 25 := by
    show ("usr" ++ h2 ++ n2 ++ ("a" ++ Nat.repr j)).length = 25
    rw [String.length_append, String.length_append, String.length_append,
      String.length_append, hh2, hn2, repr_length_one j hj9 hj1]
    decide
  rw [List.take_of_length_le (by omega), List.take_of_length_le (by omega)] at hd
  simp only [String.data_append] at hd
  rw [← List.append_assoc, ← List.append_assoc] at hd
  have hpre : ((("usr".data ++ h1.data) ++ n1.data) ++ "a".data).length =
      ((("usr".data ++ h2.data) ++ n2.data) ++ "a".data).length := by
    have e1 : h1.data.length = 12 := hh1
    have e2 : n1.data.length = 8 := hn1
    have e3 : h2.data.length = 12 := hh2
    have e4 : n2.data.length = 8 := hn2
    simp [List.length_append, e1, e2, e3, e4]
  have hsfx := List.append_inj_right hd hpre
  exact repr_data_inj i hi9 j hj9 hsfx

/-- A unique username (`u` + 12-hex hash + 6 clock digits) is 19 characters
long, so it can never coincide with a 25-character sequential username. -/
theorem generateUniqueUsername_length (hash nowSfx : String)
    (hh : hash.length = 12) (hn : nowSfx.length = 6) :
    (generateUniqueUsername hash nowSfx).length = 19 := by
  rw [generateUniqueUsername, String.length_append, String.length_append, hh, hn]
  decide

/-! ## Lemmas: the retry loop under conflict -/

/-- One non-final loop iteration that detects a username conflict: log the
attempt, regenerate seeded with the current attempt number, continue.  The
password and success signals of this attempt are never consulted. -/
theorem registerUserLoop_conflict_step {env : RegistrationEnv} {ent : EntropyFeed}
    {maxA fuel attempt : Nat} {u : String} {log : List String}
    (hf : (env attempt).fillError = false) (hu : (env attempt).usernameError = true)
    (hlt : attempt < maxA) :
    registerUserLoop env ent maxA (fuel + 1) attempt u log =
      registerUserLoop env ent maxA fuel (attempt + 1) (regenUsername ent attempt)
        (log ++ [u]) := by
  rw [registerUserLoop]
  simp [hf, hu, hlt]

/-- The final loop iteration (no attempts remain): a conflict or password
signal no longer short-circuits — the success check still decides the
result. -/
theorem registerUserLoop_final_step {env : RegistrationEnv} {ent : EntropyFeed}
    {maxA attempt : Nat} {u : String} {log : List String}
    (hf : (env attempt).fillError = false) (hge : ¬attempt < maxA) :
    registerUserLoop env ent maxA 1 attempt u log =
      ((env attempt).success, log ++ [u]) := by
  rw [registerUserLoop]
  cases hs : (env attempt).success <;>
    simp [hf, hge, hs, registerUserLoop]

/-- A full ten-attempt run in which every attempt detects a username
conflict: the loop retries through all ten attempts (regenerating after
attempts 1–9) and the result is whatever the success check reports on the
final attempt. -/
theorem registerUser_all_conflict (env : RegistrationEnv) (ent : EntropyFeed) (u : String)
    (henv : ∀ n, 1 ≤ n → n ≤ 10 → (env n).fillError = false ∧ (env n).usernameError = true) :
    registerUser env ent u =
      ((env 10).success,
        u :: [1, 2, 3, 4, 5, 6, 7, 8, 9].map (regenUsername ent)) := by
  unfold registerUser
  rw [registerUserLoop_conflict_step (henv 1 (by norm_num) (by norm_num)).1
      (henv 1 (by norm_num) (by norm_num)).2 (by norm_num),
    registerUserLoop_conflict_step (henv 2 (by norm_num) (by norm_num)).1
      (henv 2 (by norm_num) (by norm_num)).2 (by norm_num),
    registerUserLoop_conflict_step (henv 3 (by norm_num) (by norm_num)).1
      (henv 3 (by norm_num) (by norm_num)).2 (by norm_num),
    registerUserLoop_conflict_step (henv 4 (by norm_num) (by norm_num)).1
      (henv 4 (by norm_num) (by norm_num)).2 (by norm_num),
    registerUserLoop_conflict_step (henv 5 (by norm_num) (by norm_num)).1
      (henv 5 (by norm_num) (by norm_num)).2 (by norm_num),
    registerUserLoop_conflict_step (henv 6 (by norm_num) (by norm_num)).1
      (henv 6 (by norm_num) (by norm_num)).2 (by norm_num),
    registerUserLoop_conflict_step (henv 7 (by norm_num) (by norm_num)).1
      (henv 7 (by norm_num) (by norm_num)).2 (by norm_num),
    registerUserLoop_conflict_step (henv 8 (by norm_num) (by norm_num)).1
      (henv 8 (by norm_num) (by norm_num)).2 (by norm_num),
    registerUserLoop_conflict_step (henv 9 (by norm_num) (by norm_num)).1
      (henv 9 (by norm_num) (by norm_num)).2 (by norm_num),
    registerUserLoop_final_step (henv 10 (by norm_num) (by norm_num)).1 (by norm_num)]
  simp

/-! ## Claim C1: signal priority and the final attempt -/

/-- Fixed entropy feed for concrete retry runs. -/
def entZero : EntropyFeed := fun _ => ("abcdefabcdef", "12345678")

/-- Environment in which every attempt shows both a username-conflict
indicator and a success indicator, for the C1 counterexample. -/
def envConflictSuccess : RegistrationEnv :=
  fun _ => { usernameError := true, success := true }

/-- C1, counterexample.  In an environment whose every attempt shows a
conflict indicator together with a (stale) success indicator, the run
still performs all 10 attempts — so conflict outranks success while
attempts remain — but on the final attempt, where no attempts remain, the
code falls through past the conflict branch to the success check and
returns Success: a conflict-on-exhaustion run is classified as Success,
refuting "finalizes as Failure(\"conflict exhausted\") and is never
classified as Success". -/
theorem registerUser_final_attempt_conflict_can_succeed_cx :
    (registerUser envConflictSuccess entZero "userA").1 = true ∧
    (registerUser envConflictSuccess entZero "userA").2.length = 10 ∧
    (envConflictSuccess 10).usernameError = true := by
  decide

/-- C1 (amended).  For every attempt of the retry loop with attempts
remaining, the outcome is decided by inspecting, in the fixed priority
order and for an arbitrary environment: the conflict indicator first (a
detected conflict retries with a regenerated identity; the password and
success signals of that attempt are never consulted), then the
password-error indicator (retry with the same identity; the success
signal is not consulted), then the success indicator (finalize as Success
immediately), and with no signal at all the identity is regenerated
defensively and the loop retries.  On the final attempt, however, a
detected conflict or password error no longer finalizes the outcome by
itself: the success check still runs, and the run ends as Success exactly
when the success indicator of the final attempt matches, as Failure
otherwise.  Consequently, in a run whose every attempt reports a
conflict, all ten attempts execute and the result equals the success
signal of the final attempt — a conflict on exhaustion co-occurring with
a stale success indicator is classified as Success. -/
theorem registerUser_conflict_priority_amended :
    (∀ (env : RegistrationEnv) (ent : EntropyFeed) (maxA fuel attempt : Nat)
        (u : String) (log : List String),
        (env attempt).fillError = false → (env attempt).usernameError = true →
        attempt < maxA →
        registerUserLoop env ent maxA (fuel + 1) attempt u log =
          registerUserLoop env ent maxA fuel (attempt + 1)
            (regenUsername ent attempt) (log ++ [u])) ∧
    (∀ (env : RegistrationEnv) (ent : EntropyFeed) (maxA fuel attempt : Nat)
        (u : String) (log : List String),
        (env attempt).fillError = false → (env attempt).usernameError = false →
        (env attempt).passwordError = true → attempt < maxA →
        registerUserLoop env ent maxA (fuel + 1) attempt u log =
          registerUserLoop env ent maxA fuel (attempt + 1) u (log ++ [u])) ∧
    (∀ (env : RegistrationEnv) (ent : EntropyFeed) (maxA fuel attempt : Nat)
        (u : String) (log : List String),
        (env attempt).fillError = false → (env attempt).usernameError = false →
        (env attempt).passwordError = false → (env attempt).success = true →
        registerUserLoop env ent maxA (fuel + 1) attempt u log = (true, log ++ [u])) ∧
    (∀ (env : RegistrationEnv) (ent : EntropyFeed) (maxA fuel attempt : Nat)
        (u : String) (log : List String),
        (env attempt).fillError = false → (env attempt).usernameError = false →
        (env attempt).passwordError = false → (env attempt).success = false →
        attempt < maxA →
        registerUserLoop env ent maxA (fuel + 1) attempt u log =
          registerUserLoop env ent maxA fuel (attempt + 1)
            (regenUsername ent attempt) (log ++ [u])) ∧
    (∀ (env : RegistrationEnv) (ent : EntropyFeed) (maxA attempt : Nat)
        (u : String) (log : List String),
        (env attempt).fillError = false → ¬attempt < maxA →
        registerUserLoop env ent maxA 1 attempt u log =
          ((env attempt).success, log ++ [u])) ∧
    (∀ (env : RegistrationEnv) (ent : EntropyFeed) (u : String),
        (∀ n, 1 ≤ n → n ≤ 10 →
          (env n).fillError = false ∧ (env n).usernameError = true) →
        (registerUser env ent u).1 = (env 10).success ∧
        (registerUser env ent u).2.length = 10) := by
  refine ⟨?_, ?_, ?_, ?_, ?_, ?_⟩
  · intro env ent maxA fuel attempt u log hf hu hlt
    exact registerUserLoop_conflict_step hf hu hlt
  · intro env ent maxA fuel attempt u log hf hu hp hlt
    rw [registerUserLoop]
    simp [hf, hu, hp, hlt]
  · intro env ent maxA fuel attempt u log hf hu hp hs
    rw [registerUserLoop]
    simp [hf, hu, hp, hs]
  · intro env ent maxA fuel attempt u log hf hu hp hs hlt
    rw [registerUserLoop]
    simp [hf, hu, hp, hs, hlt]
  · intro env ent maxA attempt u log hf hge
    exact registerUserLoop_final_step hf hge
  · intro env ent u henv
    rw [registerUser_all_conflict env ent u henv]
    exact ⟨rfl, by simp⟩

/-- Environment showing a conflict on every attempt and a success
indicator only on the tenth, for the C1 witness. -/
def envC1W : RegistrationEnv :=
  fun n => { usernameError := true, success := decide (n = 10) }

/-- Environment exercising each priority branch in turn (conflict on
attempt 1, password error on attempt 2, success on attempts 3 and 10),
for the C1 witness. -/
def envPriorityW : RegistrationEnv :=
  fun n =>
    { usernameError := decide (n = 1),
      passwordError := decide (n = 2),
      success := decide (n = 3 ∨ n = 10) }

/-- C1 witness: every conjunct of the amended priority law evaluated at a
concrete environment and attempt — the conflict step on attempt 1, the
password step on attempt 2 (success not consulted), immediate success on
attempt 3, the no-signal step on attempt 4, the final-attempt law on
attempt 10, and the all-conflict run on an environment whose final
attempt also shows success. -/
theorem registerUser_conflict_priority_amended_witness :
    (registerUserLoop envPriorityW entZero 10 9 1 "u0" [] =
      registerUserLoop envPriorityW entZero 10 8 2 (regenUsername entZero 1) ["u0"]) ∧
    (registerUserLoop envPriorityW entZero 10 8 2 "u1" ["u0"] =
      registerUserLoop envPriorityW entZero 10 7 3 "u1" ["u0", "u1"]) ∧
    (registerUserLoop envPriorityW entZero 10 7 3 "u1" ["u0"] = (true, ["u0", "u1"])) ∧
    (registerUserLoop envPriorityW entZero 10 6 4 "u3" [] =
      registerUserLoop envPriorityW entZero 10 5 5 (regenUsername entZero 4) ["u3"]) ∧
    (registerUserLoop envPriorityW entZero 10 1 10 "u9" [] =
      ((envPriorityW 10).success, ["u9"])) ∧
    ((registerUser envC1W entZero "userW").1 = (envC1W 10).success ∧
      (registerUser envC1W entZero "userW").2.length = 10) :=
  ⟨registerUser_conflict_priority_amended.1 envPriorityW entZero 10 8 1 "u0" []
      rfl rfl (by decide),
    registerUser_conflict_priority_amended.2.1 envPriorityW entZero 10 7 2 "u1" ["u0"]
      rfl rfl rfl (by decide),
    registerUser_conflict_priority_amended.2.2.1 envPriorityW entZero 10 6 3 "u1" ["u0"]
      rfl rfl rfl rfl,
    registerUser_conflict_priority_amended.2.2.2.1 envPriorityW entZero 10 5 4 "u3" []
      rfl rfl rfl rfl (by decide),
    registerUser_conflict_priority_amended.2.2.2.2.1 envPriorityW entZero 10 10 "u9" []
      rfl (by decide),
    registerUser_conflict_priority_amended.2.2.2.2.2 envC1W entZero "userW"
      (fun _ _ _ => ⟨rfl, rfl⟩)⟩

/-! ## Claim C5: conflict exhaustion with distinct identities -/

/-- C5 (confirmed).  Against an adapter that reports a username conflict on
every attempt (and no success indicator), a run starting from a
`generateUniqueUsername` identity returns Failure (`false`) after exactly
10 attempts, and the 10 identities used are pairwise distinct: attempts
2–10 use `generateSequentialUsername` seeded with the previous attempt
number (seeds 1–9), whose suffix survives truncation, and the initial
identity has a different length (19 vs 25) than any sequential one.  The
entropy-shape hypotheses record the documented output formats of the two
generators. -/
theorem registerUser_conflict_exhaustion_distinct
    (env : RegistrationEnv) (ent : EntropyFeed) (hash nowSfx : String)
    (hhash : hash.length = 12) (hnow : nowSfx.length = 6)
    (hent : ∀ n, (ent n).1.length = 12 ∧ (ent n).2.length = 8)
    (henv : ∀ n, (env n).fillError = false ∧ (env n).usernameError = true ∧
      (env n).success = false) :
    (registerUser env ent (generateUniqueUsername hash nowSfx)).1 = false ∧
    (registerUser env ent (generateUniqueUsername hash nowSfx)).2.length = 10 ∧
    (registerUser env ent (generateUniqueUsername hash nowSfx)).2.Nodup := by
  rw [registerUser_all_conflict env ent _
    (fun n _ _ => ⟨(henv n).1, (henv n).2.1⟩), (henv 10).2.2]
  refine ⟨rfl, by simp, ?_⟩
  rw [List.nodup_cons]
  constructor
  · intro hmem
    rcases List.mem_map.mp hmem with ⟨a, ha, hae⟩
    have hbounds : 1 ≤ a ∧ a ≤ 9 := by
      fin_cases ha <;> exact ⟨by norm_num, by norm_num⟩
    have h25 := generateSequentialUsername_length (ent a).1 (ent a).2 a
      (hent a).1 (hent a).2 hbounds.1 hbounds.2
    rw [regenUsername] at hae
    rw [hae] at h25
    rw [generateUniqueUsername_length hash nowSfx hhash hnow] at h25
    exact absurd h25 (by norm_num)
  · apply List.Nodup.map_on
    · intro x hx y hy hxy
      have hbx : 1 ≤ x ∧ x ≤ 9 := by fin_cases hx <;> exact ⟨by norm_num, by norm_num⟩
      have hby : 1 ≤ y ∧ y ≤ 9 := by fin_cases hy <;> exact ⟨by norm_num, by norm_num⟩
      rw [regenUsername, regenUsername] at hxy
      exact generateSequentialUsername_inj (ent x).1 (ent x).2 (ent y).1 (ent y).2 x y
        (hent x).1 (hent x).2 (hent y).1 (hent y).2
        hbx.1 hbx.2 hby.1 hby.2 hxy
    · decide

/-- All-conflict environment for the C5 witness. -/
def envConflictAll : RegistrationEnv := fun _ => { usernameError := true }

/-- C5 witness: the exhaustion law evaluated on a concrete all-conflict
environment, fixed entropy, and a concrete initial identity. -/
theorem registerUser_conflict_exhaustion_distinct_witness :
    (registerUser envConflictAll entZero
      (generateUniqueUsername "0123456789ab" "654321")).1 = false ∧
    (registerUser envConflictAll entZero
      (generateUniqueUsername "0123456789ab" "654321")).2.length = 10 ∧
    (registerUser envConflictAll entZero
      (generateUniqueUsername "0123456789ab" "654321")).2.Nodup :=
  registerUser_conflict_exhaustion_distinct envConflictAll entZero
    "0123456789ab" "654321" rfl rfl (fun _ => ⟨rfl, rfl⟩)
    (fun _ => ⟨rfl, rfl, rfl⟩)

/-! ## Claim C6: what a terminal Failure carries -/

/-- Exhausted runs always return bare `false`, whatever the signals along
the way were: when no attempt ever shows a success indicator, the loop can
only fall off its attempt budget. -/
theorem registerUserLoop_no_success (env : RegistrationEnv) (ent : EntropyFeed)
    (maxA : Nat) (hsucc : ∀ n, (env n).success = false) :
    ∀ fuel attempt u log, (registerUserLoop env ent maxA fuel attempt u log).1 = false := by
  intro fuel
  induction fuel with
  | zero => intro _ _ _; rfl
  | succ f ih =>
    intro attempt u log
    rw [registerUserLoop]
    by_cases h1 : (env attempt).fillError
    · simp [h1, ih]
    · by_cases h2 : (env attempt).usernameError && decide (attempt < maxA)
      · simp [h1, h2, ih]
      · by_cases h3 : (env attempt).passwordError && decide (attempt < maxA)
        · simp [h1, h2, h3, ih]
        · by_cases h4 : attempt < maxA
          · have hu : (env attempt).usernameError = false := by
              revert h2
              simp [h4]
            have hp : (env attempt).passwordError = false := by
              revert h3
              simp [h4]
            simp [h1, hu, hp, h4, hsucc attempt, ih]
          · simp [h1, h2, h3, h4, hsucc attempt, ih]

/-- C6 (amended).  `registerUser` returns a bare boolean, not a
`Success/Failure` record: every exhausted run returns the same value
`false`, regardless of whether the last detected signal was a conflict, a
password error, or no signal at all — the attempt number and last signal
are only written to the console log, so a caller cannot distinguish
exhaustion reasons from the result. -/
theorem registerUser_failure_indistinguishable_amended
    (envA envB : RegistrationEnv) (entA entB : EntropyFeed) (uA uB : String)
    (hA : ∀ n, (envA n).success = false) (hB : ∀ n, (envB n).success = false) :
    (registerUser envA entA uA).1 = false ∧
    (registerUser envB entB uB).1 = false ∧
    (registerUser envA entA uA).1 = (registerUser envB entB uB).1 := by
  have h1 := registerUserLoop_no_success envA entA 10 hA 10 1 uA []
  have h2 := registerUserLoop_no_success envB entB 10 hB 10 1 uB []
  exact ⟨h1, h2, by rw [registerUser, registerUser, h1, h2]⟩

/-- All-password-error environment for C6. -/
def envPasswordAll : RegistrationEnv := fun _ => { passwordError := true }

/-- C6, counterexample.  A run exhausted by username conflicts and a run
exhausted by password errors return *identical* results (the bare boolean
`false`): the claimed "last attempt number and last detected signal" are
not carried by the result, so the caller cannot distinguish the exhaustion
reasons. -/
theorem registerUser_failure_no_context_cx :
    (registerUser envConflictAll entZero "userA").1 =
      (registerUser envPasswordAll entZero "userA").1 ∧
    (registerUser envConflictAll entZero "userA").1 = false ∧
    (envConflictAll 10).usernameError = true ∧
    (envConflictAll 10).passwordError = false ∧
    (envPasswordAll 10).usernameError = false ∧
    (envPasswordAll 10).passwordError = true := by
  decide

/-- C6 witness: the amended indistinguishability law evaluated on the
concrete conflict-exhausted and password-exhausted environments. -/
theorem registerUser_failure_indistinguishable_amended_witness :
    (registerUser envConflictAll entZero "uA").1 = false ∧
    (registerUser envPasswordAll entZero "uB").1 = false ∧
    (registerUser envConflictAll entZero "uA").1 =
      (registerUser envPasswordAll entZero "uB").1 :=
  registerUser_failure_indistinguishable_amended envConflictAll envPasswordAll
    entZero entZero "uA" "uB" (fun _ => rfl) (fun _ => rfl)
